import Mathlib

/-!
Verification development for the Drawing-App repository.

The TypeScript source (src/components/canvas/Canvas.tsx, src/app/page.tsx)
is shallowly embedded here.  JavaScript numbers are modelled as rationals
(`ℚ`); a floating-point comparison `Math.sqrt d < t` (with `d ≥ 0`) is
embedded as its algebraic equivalent `0 < t ∧ d < t * t`, so that every
definition stays executable and decidable.  Platform primitives that are
not arithmetic — canvas text metrics (`ctx.measureText`) and the
trigonometric arrow-head construction (`Math.cos`/`Math.sin`/`Math.atan2`,
irrational in general) — are passed in as explicit environment functions.
-/

namespace DrawingApp

/-- Embeds `BrushType` from Toolbar.tsx. -/
inductive BrushType
  | normal
  | rough
  | sketchy
  | laser
  deriving DecidableEq, Repr

/-- Embeds `ShapeType` from Toolbar.tsx.  `none` is the freehand-drawing tool. -/
inductive ShapeType
  | none
  | square
  | triangle
  | arrow
  | diamond
  | circle
  | select
  | text
  deriving DecidableEq, Repr

/-- Embeds `Point` from Canvas.tsx: world-space coordinates with optional pressure. -/
structure Point where
  x : ℚ
  y : ℚ
  pressure : Option ℚ := Option.none
  deriving DecidableEq, Repr

/-- Embeds `Shape` from Canvas.tsx.  Every creation site in the source assigns an id,
so it is modelled as a plain string. -/
structure Shape where
  type : ShapeType
  startPoint : Point
  endPoint : Point
  color : String
  width : ℚ
  id : String
  text : Option String := Option.none
  deriving DecidableEq, Repr

/-- Embeds `Stroke` from Canvas.tsx. -/
structure Stroke where
  points : List Point
  color : String
  width : ℚ
  brushType : BrushType
  id : String
  deriving DecidableEq, Repr

/-- The four corner resize handles. -/
inductive Handle
  | nw
  | ne
  | sw
  | se
  deriving DecidableEq, Repr

/-- Target type of `selectedElement`. -/
inductive ElemType
  | stroke
  | shape
  deriving DecidableEq, Repr

/-- Embeds `selectedElement` from Canvas.tsx. -/
structure Selected where
  type : ElemType
  id : String
  deriving DecidableEq, Repr

/-! ## Geometry kernel -/

/-- The list of consecutive segments of a polyline: the pairs
`(pts[i], pts[i+1])` for `i = 0 .. pts.length - 2`, exactly the index range
of the `for` loops in the source. -/
def segments (pts : List Point) : List (Point × Point) :=
  pts.zip pts.tail

/-- Embedding of `Math.sqrt dsq < t` for a nonnegative radicand `dsq`:
equivalent to `0 < t ∧ dsq < t * t`. -/
def sqrtLt (dsq t : ℚ) : Bool :=
  decide (0 < t ∧ dsq < t * t)

/-- Embedding of `Math.sqrt v > s` for a nonnegative radicand `v`:
equivalent to `s < 0 ∨ s * s < v`. -/
def sqrtGt (v s : ℚ) : Bool :=
  decide (s < 0 ∨ s * s < v)

/-- Squared distance between two points. -/
def distSq (a b : Point) : ℚ :=
  (a.x - b.x) * (a.x - b.x) + (a.y - b.y) * (a.y - b.y)

/-- The squared point-to-segment distance computed by the repeated inline
block in `isPointNearStroke` / `isPointNearShape` (Canvas.tsx lines
527-553): project onto the segment, clamp the parameter to the endpoints,
with `param = -1` when the segment is degenerate. -/
def distToSegSq (x y : ℚ) (p1 p2 : Point) : ℚ :=
  let A := x - p1.x
  let B := y - p1.y
  let C := p2.x - p1.x
  let D := p2.y - p1.y
  let dot := A * C + B * D
  let lenSq := C * C + D * D
  let param := if lenSq ≠ 0 then dot / lenSq else -1
  let xx := if param < 0 then p1.x else if param > 1 then p2.x else p1.x + param * C
  let yy := if param < 0 then p1.y else if param > 1 then p2.y else p1.y + param * D
  (x - xx) * (x - xx) + (y - yy) * (y - yy)

/-- Embeds `isPointNearStroke` (Canvas.tsx lines 520-558).  The threshold is
`strokeWidth * 2.5` where `strokeWidth` is the *currently active tool
width* prop, not the stored width of the stroke (the function does not
even receive the stroke's own width). -/
def isPointNearStroke (toolWidth x y : ℚ) (strokePoints : List Point) : Bool :=
  (segments strokePoints).any fun s =>
    sqrtLt (distToSegSq x y s.1 s.2) (toolWidth * (5/2))

/-- Embeds `doLineSegmentsIntersect` (Canvas.tsx lines 783-791): parametric
segment intersection, `false` on zero denominator (parallel segments). -/
def doLineSegmentsIntersect (p1 p2 p3 p4 : Point) : Bool :=
  let denominator := (p4.y - p3.y) * (p2.x - p1.x) - (p4.x - p3.x) * (p2.y - p1.y)
  if denominator = 0 then false
  else
    let ua := ((p4.x - p3.x) * (p1.y - p3.y) - (p4.y - p3.y) * (p1.x - p3.x)) / denominator
    let ub := ((p2.x - p1.x) * (p1.y - p3.y) - (p2.y - p1.y) * (p1.x - p3.x)) / denominator
    decide (0 ≤ ua ∧ ua ≤ 1 ∧ 0 ≤ ub ∧ ub ≤ 1)

/-- Embeds `isPointNearShape` (Canvas.tsx lines 560-780).  `measureText fs s`
models `ctx.measureText(s).width` under font size `fs` (platform text
metrics); `arrowHead sp ep` models the two arrow-head endpoints computed
with `Math.atan2`/`cos`/`sin` (platform trigonometry, irrational).  The
margin is `strokeWidth * 2.5` from the active tool width. -/
def isPointNearShape (measureText : ℚ → String → ℚ)
    (arrowHead : Point → Point → Point × Point)
    (toolWidth x y : ℚ) (shape : Shape) : Bool :=
  let sp := shape.startPoint
  let ep := shape.endPoint
  let margin := toolWidth * (5/2)
  match shape.type with
  | ShapeType.square =>
      let left := min sp.x ep.x
      let right := max sp.x ep.x
      let top := min sp.y ep.y
      let bottom := max sp.y ep.y
      let nearHorizontal :=
        decide ((top - margin ≤ y ∧ y ≤ bottom + margin) ∧
          (|x - left| ≤ margin ∨ |x - right| ≤ margin))
      let nearVertical :=
        decide ((left - margin ≤ x ∧ x ≤ right + margin) ∧
          (|y - top| ≤ margin ∨ |y - bottom| ≤ margin))
      nearHorizontal || nearVertical
  | ShapeType.triangle =>
      let midX := sp.x + (ep.x - sp.x) / 2
      let v0 : Point := ⟨midX, sp.y, Option.none⟩
      let v1 : Point := ⟨ep.x, ep.y, Option.none⟩
      let v2 : Point := ⟨sp.x, ep.y, Option.none⟩
      sqrtLt (distToSegSq x y v0 v1) margin ||
      sqrtLt (distToSegSq x y v1 v2) margin ||
      sqrtLt (distToSegSq x y v2 v0) margin
  | ShapeType.arrow =>
      let hd := arrowHead sp ep
      sqrtLt (distToSegSq x y sp ep) margin ||
      sqrtLt (distSq ⟨x, y, Option.none⟩ hd.1) margin ||
      sqrtLt (distSq ⟨x, y, Option.none⟩ hd.2) margin
  | ShapeType.circle =>
      let centerX := (sp.x + ep.x) / 2
      let centerY := (sp.y + ep.y) / 2
      let radiusX := |ep.x - sp.x| / 2
      let radiusY := |ep.y - sp.y| / 2
      -- In JS a zero radius makes dx/radiusX infinite or NaN and the final
      -- `< margin` comparison false; the degenerate case is made explicit.
      if radiusX = 0 ∨ radiusY = 0 then false
      else
        let dx := x - centerX
        let dy := y - centerY
        -- normalizedDist = sqrt v; test |sqrt v - 1| * min rx ry < margin,
        -- i.e. sqrt v < 1 + t and sqrt v > 1 - t with t = margin / min.
        let v := (dx / radiusX) * (dx / radiusX) + (dy / radiusY) * (dy / radiusY)
        let t := margin / min radiusX radiusY
        sqrtLt v (1 + t) && sqrtGt v (1 - t)
  | ShapeType.diamond =>
      let centerX := (sp.x + ep.x) / 2
      let centerY := (sp.y + ep.y) / 2
      let v0 : Point := ⟨centerX, sp.y, Option.none⟩
      let v1 : Point := ⟨ep.x, centerY, Option.none⟩
      let v2 : Point := ⟨centerX, ep.y, Option.none⟩
      let v3 : Point := ⟨sp.x, centerY, Option.none⟩
      sqrtLt (distToSegSq x y v0 v1) margin ||
      sqrtLt (distToSegSq x y v1 v2) margin ||
      sqrtLt (distToSegSq x y v2 v3) margin ||
      sqrtLt (distToSegSq x y v3 v0) margin
  | ShapeType.text =>
      match shape.text with
      | Option.none => false
      | Option.some s =>
          let fontSize := shape.width * 10
          let textWidth := measureText fontSize s
          let textHeight := fontSize
          let bounds :=
            if ep.x ≠ sp.x ∨ ep.y ≠ sp.y then
              (sp.x, sp.y - textHeight, ep.x, ep.y)
            else
              (sp.x, sp.y - textHeight, sp.x + textWidth, sp.y)
          decide (bounds.1 - margin ≤ x ∧ x ≤ bounds.2.2.1 + margin ∧
            bounds.2.1 - margin ≤ y ∧ y ≤ bounds.2.2.2 + margin)
  | _ => false

/-! ## Bounds and resize handles -/

/-- Axis-aligned bounds `{x, y, width, height}`. -/
structure Bounds where
  x : ℚ
  y : ℚ
  w : ℚ
  h : ℚ
  deriving DecidableEq, Repr

/-- Computes `Math.min(...xs)` over the x coordinates.  (On an empty list JS yields
`Infinity`; strokes always carry at least one point, the empty case is 0.) -/
def minXOf : List Point → ℚ
  | [] => 0
  | p :: ps => ps.foldl (fun m q => min m q.x) p.x

def maxXOf : List Point → ℚ
  | [] => 0
  | p :: ps => ps.foldl (fun m q => max m q.x) p.x

def minYOf : List Point → ℚ
  | [] => 0
  | p :: ps => ps.foldl (fun m q => min m q.y) p.y

def maxYOf : List Point → ℚ
  | [] => 0
  | p :: ps => ps.foldl (fun m q => max m q.y) p.y

/-- An element that can be selected/resized: `Shape | Stroke` in the source. -/
inductive Element
  | stroke (s : Stroke)
  | shape (sh : Shape)
  deriving DecidableEq, Repr

/-- The bounds computation shared by `getResizeHandle` and
`drawSelectionBox` (Canvas.tsx lines 794-839). -/
def elemBounds (measureText : ℚ → String → ℚ) : Element → Bounds
  | Element.stroke s =>
      ⟨minXOf s.points, minYOf s.points,
       maxXOf s.points - minXOf s.points, maxYOf s.points - minYOf s.points⟩
  | Element.shape sh =>
      match sh.type, sh.text with
      | ShapeType.text, Option.some txt =>
          let fontSize := sh.width * 10
          let textWidth := measureText fontSize txt
          let textHeight := fontSize
          if sh.endPoint.x ≠ sh.startPoint.x ∨ sh.endPoint.y ≠ sh.startPoint.y then
            ⟨sh.startPoint.x, sh.startPoint.y - textHeight,
             sh.endPoint.x - sh.startPoint.x,
             sh.endPoint.y - (sh.startPoint.y - textHeight)⟩
          else
            ⟨sh.startPoint.x, sh.startPoint.y - textHeight, textWidth, textHeight⟩
      | _, _ =>
          ⟨min sh.startPoint.x sh.endPoint.x, min sh.startPoint.y sh.endPoint.y,
           |sh.endPoint.x - sh.startPoint.x|, |sh.endPoint.y - sh.startPoint.y|⟩

/-- Handle centre positions: selection padding 8 around the bounds. -/
def handlePos (b : Bounds) : Handle → ℚ × ℚ
  | Handle.nw => (b.x - 8, b.y - 8)
  | Handle.ne => (b.x + b.w + 8, b.y - 8)
  | Handle.sw => (b.x - 8, b.y + b.h + 8)
  | Handle.se => (b.x + b.w + 8, b.y + b.h + 8)

/-- Hit box test of one handle: `handleSize = 20`, so a ±10 box around the
handle centre, with inclusive `>=`/`<=` comparisons as in the source. -/
def inHandleBox (x y : ℚ) (h : ℚ × ℚ) : Bool :=
  decide (h.1 - 10 ≤ x ∧ x ≤ h.1 + 10 ∧ h.2 - 10 ≤ y ∧ y ≤ h.2 + 10)

/-- Embeds `getResizeHandle` (Canvas.tsx lines 793-861): tests the four handle
hit boxes in the object-literal insertion order nw, ne, sw, se and returns
the first hit. -/
def getResizeHandle (measureText : ℚ → String → ℚ)
    (x y : ℚ) (el : Element) : Option Handle :=
  let b := elemBounds measureText el
  let hs : List (Handle × (ℚ × ℚ)) :=
    [(Handle.nw, handlePos b Handle.nw), (Handle.ne, handlePos b Handle.ne),
     (Handle.sw, handlePos b Handle.sw), (Handle.se, handlePos b Handle.se)]
  (hs.find? fun ph => inHandleBox x y ph.2).map Prod.fst

/-! ## Zoom operations (handleWheel, handleZoomIn, handleZoomOut) -/

/-- The new zoom computed by the ctrl-wheel branch of `handleWheel`
(Canvas.tsx lines 286-307): `clamp(zoom ± 0.1, 0.1, 3)` by scroll
direction (`delta = -deltaY`). -/
def wheelNewZoom (zoom deltaY : ℚ) : ℚ :=
  let delta := -deltaY
  max (1/10) (min 3 (zoom + (if delta > 0 then (1 : ℚ)/10 else -(1 : ℚ)/10)))

/-- Embeds `handleZoomIn` (Canvas.tsx line 237): `Math.min(prev + 0.1, 3)`. -/
def zoomInStep (z : ℚ) : ℚ :=
  min (z + 1/10) 3

/-- Embeds `handleZoomOut` (Canvas.tsx line 256): `Math.max(prev - 0.1, 0.1)`. -/
def zoomOutStep (z : ℚ) : ℚ :=
  max (z - 1/10) (1/10)

/-- One zoom operation: a Ctrl/Cmd-modified wheel event or a zoom button. -/
inductive ZoomOp
  | wheel (deltaY : ℚ)
  | buttonIn
  | buttonOut
  deriving Repr

/-- Apply one zoom operation to the current zoom value. -/
def applyZoomOp (z : ℚ) : ZoomOp → ℚ
  | ZoomOp.wheel d => wheelNewZoom z d
  | ZoomOp.buttonIn => zoomInStep z
  | ZoomOp.buttonOut => zoomOutStep z

/-! ## Undo (page.tsx handleUndo) -/

/-- The element collections owned by page.tsx. -/
structure PageState where
  strokes : List Stroke
  shapes : List Shape
  deriving DecidableEq, Repr

/-- Embeds `handleUndo` (page.tsx lines 54-60): `slice(0, -1)` pops the last
element of `shapes` when non-empty, otherwise of `strokes`. -/
def handleUndo (p : PageState) : PageState :=
  if p.shapes.length > 0 then { p with shapes := p.shapes.dropLast }
  else { p with strokes := p.strokes.dropLast }

/-- Computes `strokes.length + shapes.length`. -/
def totalElems (p : PageState) : ℕ :=
  p.strokes.length + p.shapes.length

/-! ## Interaction state machine (Canvas.tsx event handlers) -/

/-- The component props plus the platform environment, fixed during a run:
tool configuration from the toolbar, text metrics, arrow-head trigonometry
and the id generator (`Math.random().toString(36).substr(2, 9)` in the
source, modelled as a function of a per-state counter). -/
structure Config where
  color : String
  strokeWidth : ℚ
  brushType : BrushType
  tool : ShapeType
  eraseMode : Bool
  measureText : ℚ → String → ℚ
  arrowHead : Point → Point → Point × Point
  genId : ℕ → String

/-- The mutable component state of Canvas.tsx (lines 202-215, 318-319),
with `pointerActive` modelling held pointer capture
(`setPointerCapture`/`releasePointerCapture`): while a pointer is
captured, no second pointer-down is delivered to the handler. -/
structure CanvasState where
  strokes : List Stroke
  shapes : List Shape
  currentPoints : List Point
  currentShape : Option Shape
  textInput : Option (ℚ × ℚ)
  isDrawing : Bool
  isDragging : Bool
  isResizing : Bool
  isPanning : Bool
  lastPanPoint : Option Point
  selectedElement : Option Selected
  dragStart : Option Point
  resizeHandle : Option Handle
  hoverHandle : Option Handle
  zoom : ℚ
  panX : ℚ
  panY : ℚ
  pointerActive : Bool
  idCounter : ℕ
  deriving DecidableEq, Repr

/-- The initial component state: empty collections, zoom 1, no gesture.
(The initial pan merely centres the canvas in its container; it is taken
as the origin here.) -/
def initState : CanvasState where
  strokes := []
  shapes := []
  currentPoints := []
  currentShape := Option.none
  textInput := Option.none
  isDrawing := false
  isDragging := false
  isResizing := false
  isPanning := false
  lastPanPoint := Option.none
  selectedElement := Option.none
  dragStart := Option.none
  resizeHandle := Option.none
  hoverHandle := Option.none
  zoom := 1
  panX := 0
  panY := 0
  pointerActive := false
  idCounter := 0

/-- Embeds `getPointerPosition` (Canvas.tsx lines 274-283): invert pan and zoom.
The event point `c` carries container-relative client coordinates. -/
def worldOf (st : CanvasState) (c : Point) : Point :=
  ⟨(c.x - st.panX) / st.zoom, (c.y - st.panY) / st.zoom, c.pressure⟩

/-- Look up the selected element in its collection
(`shapes.find(s => s.id === selectedElement.id)` etc.). -/
def elementOf (st : CanvasState) (sel : Selected) : Option Element :=
  match sel.type with
  | ElemType.shape => (st.shapes.find? fun s => s.id = sel.id).map Element.shape
  | ElemType.stroke => (st.strokes.find? fun s => s.id = sel.id).map Element.stroke

/-- The per-handle shape mutation of the resizing branch of
`handlePointerMove` (Canvas.tsx lines 1057-1068): `n`/`s` move
`startPoint.y`/`endPoint.y`, `w`/`e` move `startPoint.x`/`endPoint.x`. -/
def resizeShape (h : Handle) (p : Point) (sh : Shape) : Shape :=
  match h with
  | Handle.nw => { sh with startPoint := { sh.startPoint with x := p.x, y := p.y } }
  | Handle.ne => { sh with startPoint := { sh.startPoint with y := p.y },
                           endPoint := { sh.endPoint with x := p.x } }
  | Handle.sw => { sh with startPoint := { sh.startPoint with x := p.x },
                           endPoint := { sh.endPoint with y := p.y } }
  | Handle.se => { sh with endPoint := { sh.endPoint with x := p.x, y := p.y } }

/-- The stroke bounding box of the resizing branch (Canvas.tsx lines
1078-1083). -/
structure BBox where
  minX : ℚ
  maxX : ℚ
  minY : ℚ
  maxY : ℚ
  deriving DecidableEq, Repr

def strokeBBox (pts : List Point) : BBox :=
  ⟨minXOf pts, maxXOf pts, minYOf pts, maxYOf pts⟩

/-- The new box origin and dimensions of the stroke-resizing branch
(Canvas.tsx lines 1085-1103), determined by which corner handle moves. -/
structure ResizeTarget where
  newX : ℚ
  newY : ℚ
  newW : ℚ
  newH : ℚ
  deriving DecidableEq, Repr

def resizeTarget (h : Handle) (p : Point) (b : BBox) : ResizeTarget :=
  let xw : ℚ × ℚ :=
    match h with
    | Handle.ne | Handle.se => (b.minX, p.x - b.minX)
    | Handle.nw | Handle.sw => (p.x, b.maxX - p.x)
  let yh : ℚ × ℚ :=
    match h with
    | Handle.se | Handle.sw => (b.minY, p.y - b.minY)
    | Handle.ne | Handle.nw => (p.y, b.maxY - p.y)
  ⟨xw.1, yh.1, xw.2, yh.2⟩

/-- The per-point proportional remap of the stroke-resizing branch
(Canvas.tsx lines 1114-1125): relative offset within the original box,
reapplied to the new box. -/
def resizePoint (b : BBox) (t : ResizeTarget) (p : Point) : Point :=
  let relativeX := (p.x - b.minX) / (b.maxX - b.minX)
  let relativeY := (p.y - b.minY) / (b.maxY - b.minY)
  ⟨t.newX + relativeX * t.newW, t.newY + relativeY * t.newH, p.pressure⟩

/-- The stroke-removal test of the erase branch of `handlePointerUp`
(Canvas.tsx lines 1164-1195): over every pair of a stroke segment and an
eraser-path segment, remove when either stroke-segment endpoint is within
`strokeWidth * 2` of the eraser segment's *start* point, or the segments
intersect. -/
def strokeRemovedByEraser (toolWidth : ℚ) (erasePath strokePoints : List Point) : Bool :=
  (segments strokePoints).any fun ss =>
    (segments erasePath).any fun es =>
      sqrtLt (distSq ss.1 es.1) (toolWidth * 2) ||
      sqrtLt (distSq ss.2 es.1) (toolWidth * 2) ||
      doLineSegmentsIntersect ss.1 ss.2 es.1 es.2

/-- Embeds `handlePointerDown` (Canvas.tsx lines 891-979). -/
def handlePointerDown (cfg : Config) (st : CanvasState) (c : Point) : CanvasState :=
  let st := { st with pointerActive := true }
  if st.isPanning then
    { st with lastPanPoint := Option.some ⟨c.x, c.y, Option.none⟩ }
  else
    let point := worldOf st c
    if cfg.tool = ShapeType.text then
      { st with textInput := Option.some (point.x, point.y) }
    else if cfg.eraseMode then
      { st with currentPoints := [point], isDrawing := true }
    else if cfg.tool = ShapeType.select then
      let resizeHit : Option Handle :=
        match st.selectedElement with
        | Option.some sel =>
            match elementOf st sel with
            | Option.some el => getResizeHandle cfg.measureText point.x point.y el
            | Option.none => Option.none
        | Option.none => Option.none
      match resizeHit with
      | Option.some h =>
          { st with isResizing := true, resizeHandle := Option.some h,
                    dragStart := Option.some point }
      | Option.none =>
          -- shapes are checked first (topmost), most recently added first
          match st.shapes.reverse.find? (fun sh =>
              isPointNearShape cfg.measureText cfg.arrowHead cfg.strokeWidth
                point.x point.y sh) with
          | Option.some sh =>
              { st with selectedElement := Option.some ⟨ElemType.shape, sh.id⟩,
                        isDragging := true, dragStart := Option.some point }
          | Option.none =>
              match st.strokes.reverse.find? (fun s =>
                  isPointNearStroke cfg.strokeWidth point.x point.y s.points) with
              | Option.some s =>
                  { st with selectedElement := Option.some ⟨ElemType.stroke, s.id⟩,
                            isDragging := true, dragStart := Option.some point }
              | Option.none =>
                  { st with selectedElement := Option.none }
    else if cfg.tool ≠ ShapeType.none then
      { st with currentShape := Option.some
                  ⟨cfg.tool, point, point, cfg.color, cfg.strokeWidth,
                   cfg.genId st.idCounter, Option.none⟩,
                isDrawing := true, idCounter := st.idCounter + 1 }
    else
      { st with currentPoints := [point], isDrawing := true }

/-- Embeds `handlePointerMove` (Canvas.tsx lines 981-1144). -/
def handlePointerMove (cfg : Config) (st : CanvasState) (c : Point) : CanvasState :=
  match st.isPanning, st.lastPanPoint with
  | true, Option.some lp =>
      { st with panX := st.panX + (c.x - lp.x), panY := st.panY + (c.y - lp.y),
                lastPanPoint := Option.some ⟨c.x, c.y, Option.none⟩ }
  | _, _ =>
    let point := worldOf st c
    -- resize-handle hover feedback in select mode
    let st1 :=
      if cfg.tool = ShapeType.select ∧ st.selectedElement.isSome ∧
          st.isDragging = false ∧ st.isResizing = false then
        match st.selectedElement.bind (elementOf st) with
        | Option.some el =>
            { st with hoverHandle := getResizeHandle cfg.measureText point.x point.y el }
        | Option.none => st
      else st
    match st1.isDragging, st1.selectedElement, st1.dragStart with
    | true, Option.some sel, Option.some ds =>
        let dx := point.x - ds.x
        let dy := point.y - ds.y
        let st2 :=
          match sel.type with
          | ElemType.shape =>
              { st1 with shapes := st1.shapes.map fun (sh : Shape) =>
                  if sh.id = sel.id then
                    { sh with
                        startPoint := ⟨sh.startPoint.x + dx, sh.startPoint.y + dy, Option.none⟩,
                        endPoint := ⟨sh.endPoint.x + dx, sh.endPoint.y + dy, Option.none⟩ }
                  else sh }
          | ElemType.stroke =>
              { st1 with strokes := st1.strokes.map fun (s : Stroke) =>
                  if s.id = sel.id then
                    { s with points := s.points.map fun (p : Point) => ⟨p.x + dx, p.y + dy, p.pressure⟩ }
                  else s }
        { st2 with dragStart := Option.some point }
    | _, _, _ =>
      match st1.isResizing, st1.selectedElement, st1.dragStart, st1.resizeHandle with
      | true, Option.some sel, Option.some _, Option.some h =>
          let st2 :=
            match sel.type with
            | ElemType.shape =>
                match st1.shapes.find? (fun (s : Shape) => s.id = sel.id) with
                | Option.some _ =>
                    { st1 with shapes := st1.shapes.map fun (s : Shape) =>
                        if s.id = sel.id then resizeShape h point s else s }
                | Option.none => st1
            | ElemType.stroke =>
                match st1.strokes.find? (fun (s : Stroke) => s.id = sel.id) with
                | Option.some stroke =>
                    let b := strokeBBox stroke.points
                    let t := resizeTarget h point b
                    { st1 with strokes := st1.strokes.map fun (s : Stroke) =>
                        if s.id = sel.id then
                          { s with points := s.points.map (resizePoint b t) }
                        else s }
                | Option.none => st1
          { st2 with dragStart := Option.some point }
      | _, _, _, _ =>
          if st1.isDrawing then
            match (if cfg.tool ≠ ShapeType.none ∧ cfg.eraseMode = false
                   then st1.currentShape else Option.none) with
            | Option.some cs =>
                { st1 with currentShape := Option.some { cs with endPoint := point } }
            | Option.none =>
                { st1 with currentPoints := st1.currentPoints ++ [point] }
          else st1

/-- Embeds `handlePointerUp` (Canvas.tsx lines 1146-1221). -/
def handlePointerUp (cfg : Config) (st : CanvasState) : CanvasState :=
  let st := { st with pointerActive := false,
                      isDrawing := false, isDragging := false, isResizing := false,
                      dragStart := Option.none, resizeHandle := Option.none,
                      hoverHandle := Option.none }
  let st :=
    match (if cfg.eraseMode = false ∧ cfg.tool ≠ ShapeType.select
           then st.currentShape else Option.none) with
    | Option.some cs =>
        { st with shapes := st.shapes ++ [cs], currentShape := Option.none }
    | Option.none =>
        if cfg.eraseMode = true ∧ st.currentPoints.length > 0 then
          let remainingStrokes := st.strokes.filter fun (s : Stroke) =>
            !strokeRemovedByEraser cfg.strokeWidth st.currentPoints s.points
          let remainingShapes := st.shapes.filter fun (sh : Shape) =>
            !(st.currentPoints.any fun ep =>
              isPointNearShape cfg.measureText cfg.arrowHead cfg.strokeWidth ep.x ep.y sh)
          { st with strokes := remainingStrokes, shapes := remainingShapes }
        else if cfg.eraseMode = false ∧ st.currentPoints.length > 1 ∧
            cfg.tool ≠ ShapeType.select then
          { st with
              strokes := st.strokes ++
                [(⟨st.currentPoints, cfg.color, cfg.strokeWidth, cfg.brushType,
                  cfg.genId st.idCounter⟩ : Stroke)],
              idCounter := st.idCounter + 1 }
        else st
  { st with currentPoints := [] }

/-- Embeds `handleWheel` (Canvas.tsx lines 286-315): ctrl-wheel zooms about the
cursor, plain wheel pans by the raw delta. -/
def handleWheelEvent (st : CanvasState) (ctrlKey : Bool)
    (deltaX deltaY clientX clientY : ℚ) : CanvasState :=
  if ctrlKey then
    let newZoom := wheelNewZoom st.zoom deltaY
    { st with zoom := newZoom,
              panX := clientX - (clientX - st.panX) * (newZoom / st.zoom),
              panY := clientY - (clientY - st.panY) * (newZoom / st.zoom) }
  else
    { st with panX := st.panX - deltaX, panY := st.panY - deltaY }

/-- The raw input events of the component: space key edges
(`handleKeyDown`/`handleKeyUp`), wheel, and pointer events carrying
container-relative client coordinates. -/
inductive Event
  | keyDownSpace
  | keyUpSpace
  | wheel (ctrlKey : Bool) (deltaX deltaY clientX clientY : ℚ)
  | pointerDown (c : Point)
  | pointerMove (c : Point)
  | pointerUp
  | pointerOut

/-- One event dispatch.  A `pointerDown` while a pointer is already
captured is not delivered (single-pointer capture discipline: the gesture
holds pointer capture from down to up/out). -/
def step (cfg : Config) (st : CanvasState) : Event → CanvasState
  | Event.keyDownSpace => { st with isPanning := true }
  | Event.keyUpSpace => { st with isPanning := false, lastPanPoint := Option.none }
  | Event.wheel ctrl dx dy cx cy => handleWheelEvent st ctrl dx dy cx cy
  | Event.pointerDown c =>
      if st.pointerActive then st else handlePointerDown cfg st c
  | Event.pointerMove c => handlePointerMove cfg st c
  | Event.pointerUp => handlePointerUp cfg st
  | Event.pointerOut => { handlePointerUp cfg st with hoverHandle := Option.none }

/-- Run a sequence of events. -/
def run (cfg : Config) (st : CanvasState) (evts : List Event) : CanvasState :=
  evts.foldl (step cfg) st

/-- The events of one pointer gesture: down, moves, up. -/
def gestureEvents (down : Point) (moves : List Point) : List Event :=
  Event.pointerDown down :: (moves.map Event.pointerMove ++ [Event.pointerUp])

/-! ## Interaction modes -/

/-- How many of the five interaction modes of the spec (drawing, erasing,
dragging, resizing, panning) are active in a state.  Drawing and erasing
both run on the `isDrawing` flag, split by the erase-mode prop. -/
def modeCount (cfg : Config) (st : CanvasState) : ℕ :=
  (if st.isDrawing && !cfg.eraseMode then 1 else 0) +
  (if st.isDrawing && cfg.eraseMode then 1 else 0) +
  (if st.isDragging then 1 else 0) +
  (if st.isResizing then 1 else 0) +
  (if st.isPanning then 1 else 0)

/-- How many of the four pointer-gesture modes (drawing, erasing,
dragging, resizing) are active — panning excluded. -/
def gestureModeCount (cfg : Config) (st : CanvasState) : ℕ :=
  (if st.isDrawing && !cfg.eraseMode then 1 else 0) +
  (if st.isDrawing && cfg.eraseMode then 1 else 0) +
  (if st.isDragging then 1 else 0) +
  (if st.isResizing then 1 else 0)

/-- The number of pointer-gesture flags set. -/
def flagCount (st : CanvasState) : ℕ :=
  (if st.isDrawing then 1 else 0) +
  (if st.isDragging then 1 else 0) +
  (if st.isResizing then 1 else 0)

/-- The inductive invariant of the event loop: when no pointer is
captured no gesture flag is set, and at most one gesture flag is ever
set. -/
def InteractionInv (st : CanvasState) : Prop :=
  (st.pointerActive = false →
    st.isDrawing = false ∧ st.isDragging = false ∧ st.isResizing = false) ∧
  flagCount st ≤ 1

/-- A state with no gesture in progress: no captured pointer, no active
flags, no in-progress element, space not held. -/
def Quiescent (st : CanvasState) : Prop :=
  st.pointerActive = false ∧ st.isPanning = false ∧ st.isDrawing = false ∧
  st.isDragging = false ∧ st.isResizing = false ∧
  st.currentPoints = [] ∧ st.currentShape = Option.none

instance (st : CanvasState) : Decidable (Quiescent st) := by
  unfold Quiescent
  infer_instance

/-! ## Concrete fixtures used by witnesses and counterexamples -/

/-- Fixed text-metrics environment: every string measures 50 units. -/
def mtFix : ℚ → String → ℚ := fun _ _ => 50

/-- Fixed arrow-head environment. -/
def ahFix : Point → Point → Point × Point :=
  fun _ _ => (⟨0, 0, Option.none⟩, ⟨0, 0, Option.none⟩)

/-- A freehand-pencil configuration: tool `none`, erase off, width 3. -/
def cfgPencil : Config :=
  ⟨"#000000", 3, BrushType.normal, ShapeType.none, false, mtFix, ahFix,
   fun n => "id" ++ toString n⟩

/-- The same configuration with erase mode on. -/
def cfgErase : Config :=
  { cfgPencil with eraseMode := true }

/-- A 20×20 square shape. -/
def sqShape : Shape :=
  ⟨ShapeType.square, ⟨0, 0, Option.none⟩, ⟨20, 20, Option.none⟩, "#000000", 1,
   "sq", Option.none⟩

/-- A 4×4 square shape (small enough that two handle hit boxes meet). -/
def sqSmall : Shape :=
  ⟨ShapeType.square, ⟨0, 0, Option.none⟩, ⟨4, 4, Option.none⟩, "#000000", 1,
   "s4", Option.none⟩

/-- A horizontal two-point stroke along y = 0. -/
def hStrokePts : List Point :=
  [⟨0, 0, Option.none⟩, ⟨10, 0, Option.none⟩]

/-- An eraser path from (0,0) to (100,0). -/
def erasePathFix : List Point :=
  [⟨0, 0, Option.none⟩, ⟨100, 0, Option.none⟩]

/-- A stroke whose endpoints are close to the eraser path's final sample
(100,0) but far from its first sample, and whose segment does not
intersect the eraser segment. -/
def tailStroke : Stroke :=
  ⟨[⟨100, 5, Option.none⟩, ⟨100, 10, Option.none⟩], "#000000", 3,
   BrushType.normal, "tail"⟩

/-- A stroke from (0,0) to (100,0), crossed by a vertical eraser pass. -/
def crossStroke : Stroke :=
  ⟨[⟨0, 0, Option.none⟩, ⟨100, 0, Option.none⟩], "#000000", 3,
   BrushType.normal, "cross"⟩

/-- Points of a stroke with bounding box (0,0)–(4,2), used to exercise
the proportional resize. -/
def resizePts : List Point :=
  [⟨0, 0, Option.none⟩, ⟨4, 2, Option.none⟩]

/-! ## Theorems -/

/-- One zoom operation preserves the clamp interval. -/
lemma applyZoomOp_bounds (z : ℚ) (op : ZoomOp) (h1 : 1/10 ≤ z) (h2 : z ≤ 3) :
    1/10 ≤ applyZoomOp z op ∧ applyZoomOp z op ≤ 3 := by
  rcases op with d | _ | _
  · exact ⟨le_max_left _ _, max_le (by norm_num) (min_le_left _ _)⟩
  · exact ⟨le_min (by linarith) (by norm_num), min_le_right _ _⟩
  · exact ⟨le_max_right _ _, max_le (by linarith) (by norm_num)⟩

/-- Any fold of zoom operations preserves the clamp interval. -/
lemma foldl_zoom_bounds (ops : List ZoomOp) (z : ℚ) (h1 : 1/10 ≤ z) (h2 : z ≤ 3) :
    1/10 ≤ ops.foldl applyZoomOp z ∧ ops.foldl applyZoomOp z ≤ 3 := by
  induction ops generalizing z with
  | nil => exact ⟨h1, h2⟩
  | cons op ops ih =>
      obtain ⟨g1, g2⟩ := applyZoomOp_bounds z op h1 h2
      simpa using ih (applyZoomOp z op) g1 g2

/-- C1: for every sequence of zoom operations (Ctrl/Cmd wheel events and
zoom-in/zoom-out button presses) applied from the initial zoom 1, the
resulting zoom value lies in the closed interval [0.1, 3.0]. -/
theorem zoom_clamp_all_sequences (ops : List ZoomOp) :
    1/10 ≤ ops.foldl applyZoomOp 1 ∧ ops.foldl applyZoomOp 1 ≤ 3 :=
  foldl_zoom_bounds ops 1 (by norm_num) (by norm_num)

/-- C2: a ctrl-wheel zoom step at cursor position (clientX, clientY) sets
the new pan to `cursor - (cursor - oldPan) * (newZoom / oldZoom)`
componentwise, and consequently the world point under the cursor is
unchanged: `(cursor - newPan) / newZoom = (cursor - oldPan) / oldZoom`. -/
theorem wheel_pan_fixed_point (st : CanvasState)
    (clientX clientY deltaX deltaY : ℚ) (hz : st.zoom ≠ 0) :
    ((handleWheelEvent st true deltaX deltaY clientX clientY).panX =
        clientX - (clientX - st.panX) *
          ((handleWheelEvent st true deltaX deltaY clientX clientY).zoom / st.zoom) ∧
      (handleWheelEvent st true deltaX deltaY clientX clientY).panY =
        clientY - (clientY - st.panY) *
          ((handleWheelEvent st true deltaX deltaY clientX clientY).zoom / st.zoom)) ∧
    (clientX - (handleWheelEvent st true deltaX deltaY clientX clientY).panX) /
        (handleWheelEvent st true deltaX deltaY clientX clientY).zoom =
      (clientX - st.panX) / st.zoom ∧
    (clientY - (handleWheelEvent st true deltaX deltaY clientX clientY).panY) /
        (handleWheelEvent st true deltaX deltaY clientX clientY).zoom =
      (clientY - st.panY) / st.zoom := by
  have hpos : (0 : ℚ) < wheelNewZoom st.zoom deltaY :=
    lt_of_lt_of_le (by norm_num) (le_max_left _ _)
  have h1 : wheelNewZoom st.zoom deltaY ≠ 0 := ne_of_gt hpos
  refine ⟨⟨rfl, rfl⟩, ?_, ?_⟩
  · show (clientX - (clientX - (clientX - st.panX) *
        (wheelNewZoom st.zoom deltaY / st.zoom))) / wheelNewZoom st.zoom deltaY =
      (clientX - st.panX) / st.zoom
    field_simp
    ring
  · show (clientY - (clientY - (clientY - st.panY) *
        (wheelNewZoom st.zoom deltaY / st.zoom))) / wheelNewZoom st.zoom deltaY =
      (clientY - st.panY) / st.zoom
    field_simp
    ring

/-- Witness for C2 at a concrete state and wheel event. -/
theorem wheel_pan_fixed_point_witness :
    initState.zoom ≠ 0 ∧
    (100 - (handleWheelEvent initState true 0 (-1) 100 50).panX) /
        (handleWheelEvent initState true 0 (-1) 100 50).zoom =
      (100 - initState.panX) / initState.zoom :=
  ⟨by norm_num [initState],
   (wheel_pan_fixed_point initState 100 50 0 (-1) (by norm_num [initState])).2.1⟩

/-- One undo call decrements `strokes.length + shapes.length`, truncated
at zero. -/
lemma undo_total_step (p : PageState) :
    totalElems (handleUndo p) = totalElems p - 1 := by
  unfold handleUndo totalElems
  split_ifs with h
  · simp only [List.length_dropLast]
    omega
  · simp only [List.length_dropLast]
    omega

/-- C5: one undo call removes the most recent Shape if the shapes
collection is non-empty, otherwise the most recent Stroke; `n` repeated
undo calls decrease `strokes.length + shapes.length` to `total - n`
(truncated at zero), so each call strictly decreases the total by 1 until
both collections are empty, after which undo is a no-op. -/
theorem undo_pops_shape_then_stroke (p : PageState) (n : ℕ) :
    (p.shapes ≠ [] → handleUndo p = { p with shapes := p.shapes.dropLast }) ∧
    (p.shapes = [] → handleUndo p = { p with strokes := p.strokes.dropLast }) ∧
    totalElems (handleUndo^[n] p) = totalElems p - n ∧
    (p.strokes = [] → p.shapes = [] → handleUndo p = p) := by
  refine ⟨?_, ?_, ?_, ?_⟩
  · intro h
    unfold handleUndo
    rw [if_pos (by simpa using List.length_pos.mpr h)]
  · intro h
    unfold handleUndo
    rw [if_neg (by simp [h])]
  · induction n generalizing p with
    | zero => simp
    | succ n ih =>
        rw [Function.iterate_succ_apply, ih, undo_total_step]
        omega
  · intro hs hsh
    unfold handleUndo
    rw [if_neg (by simp [hsh])]
    cases p
    simp_all

/-- Witness for C5: undo pops the shape from ([], [sqShape]), the total
drops by 1, and undo on the empty state is a no-op. -/
theorem undo_pops_shape_then_stroke_witness :
    handleUndo ⟨[], [sqShape]⟩ = ⟨[], []⟩ ∧
    totalElems (handleUndo^[1] (⟨[], [sqShape]⟩ : PageState)) =
      totalElems (⟨[], [sqShape]⟩ : PageState) - 1 ∧
    handleUndo ⟨[], []⟩ = ⟨[], []⟩ :=
  ⟨(undo_pops_shape_then_stroke ⟨[], [sqShape]⟩ 1).1 (by decide),
   (undo_pops_shape_then_stroke ⟨[], [sqShape]⟩ 1).2.2.1,
   (undo_pops_shape_then_stroke ⟨[], []⟩ 0).2.2.2 rfl rfl⟩

/-- A pointer-down with the freehand tool (tool `none`, erase off, space
not held) seeds the point recording and enters drawing. -/
lemma handlePointerDown_freehand (cfg : Config) (st : CanvasState) (c : Point)
    (ht : cfg.tool = ShapeType.none) (he : cfg.eraseMode = false)
    (hp : st.isPanning = false) :
    handlePointerDown cfg st c =
      { st with pointerActive := true, currentPoints := [worldOf st c],
                isDrawing := true } := by
  simp [handlePointerDown, ht, he, hp, worldOf]

/-- A pointer-down in erase mode (with any tool except `text`, space not
held) seeds the eraser path and enters drawing. -/
lemma handlePointerDown_erase (cfg : Config) (st : CanvasState) (c : Point)
    (he : cfg.eraseMode = true) (ht : cfg.tool ≠ ShapeType.text)
    (hp : st.isPanning = false) :
    handlePointerDown cfg st c =
      { st with pointerActive := true, currentPoints := [worldOf st c],
                isDrawing := true } := by
  simp [handlePointerDown, ht, he, hp, worldOf]

/-- While drawing (or erasing) with no drag/resize/pan in progress, a
pointer-move appends the inverse-transformed point to `currentPoints`,
touching nothing else except possibly the hover handle. -/
lemma handlePointerMove_drawing (cfg : Config) (st : CanvasState) (c : Point)
    (hp : st.isPanning = false) (hd : st.isDragging = false)
    (hr : st.isResizing = false) (hw : st.isDrawing = true)
    (hmode : cfg.tool = ShapeType.none ∨ cfg.eraseMode = true) :
    ∃ hh, handlePointerMove cfg st c =
      { st with currentPoints := st.currentPoints ++ [worldOf st c],
                hoverHandle := hh } := by
  unfold handlePointerMove
  rcases hmode with ht | he
  · exact ⟨st.hoverHandle, by simp [hp, hd, hr, hw, ht]⟩
  · by_cases hsel : cfg.tool = ShapeType.select ∧ st.selectedElement.isSome = true
    · rcases h2 : st.selectedElement.bind (elementOf st) with _ | el
      · exact ⟨st.hoverHandle, by simp [hp, hd, hr, hw, hsel.1, hsel.2, h2, he]⟩
      · exact ⟨getResizeHandle cfg.measureText (worldOf st c).x (worldOf st c).y el,
          by simp [hp, hd, hr, hw, hsel.1, hsel.2, h2, he]⟩
    · exact ⟨st.hoverHandle, by simp [hp, hd, hr, hw, hsel, he]⟩

/-- Folding a list of pointer-moves while drawing accumulates the
inverse-transformed points in order. -/
lemma run_moves_drawing (cfg : Config) (st : CanvasState) (moves : List Point)
    (hp : st.isPanning = false) (hd : st.isDragging = false)
    (hr : st.isResizing = false) (hw : st.isDrawing = true)
    (hmode : cfg.tool = ShapeType.none ∨ cfg.eraseMode = true) :
    ∃ hh, run cfg st (moves.map Event.pointerMove) =
      { st with currentPoints := st.currentPoints ++ moves.map (worldOf st),
                hoverHandle := hh } := by
  induction moves generalizing st with
  | nil =>
      refine ⟨st.hoverHandle, ?_⟩
      show st = _
      simp only [List.map_nil, List.append_nil]
  | cons m ms ih =>
      obtain ⟨hh1, h1⟩ := handlePointerMove_drawing cfg st m hp hd hr hw hmode
      have hst' := ih { st with currentPoints := st.currentPoints ++ [worldOf st m],
                                hoverHandle := hh1 } hp hd hr hw
      obtain ⟨hh2, h2⟩ := hst'
      refine ⟨hh2, ?_⟩
      show run cfg (handlePointerMove cfg st m) (ms.map Event.pointerMove) = _
      rw [h1, h2]
      simp [worldOf]

/-- Pointer-up in erase mode with a non-empty eraser path: the stroke and
shape collections are filtered by the erase resolution over the whole
accumulated path, and the path is discarded. -/
lemma handlePointerUp_erase (cfg : Config) (st : CanvasState)
    (he : cfg.eraseMode = true) (hcs : st.currentShape = Option.none)
    (hne : st.currentPoints ≠ []) :
    (handlePointerUp cfg st).strokes =
      st.strokes.filter (fun s =>
        !strokeRemovedByEraser cfg.strokeWidth st.currentPoints s.points) ∧
    (handlePointerUp cfg st).shapes =
      st.shapes.filter (fun sh =>
        !(st.currentPoints.any fun ep =>
          isPointNearShape cfg.measureText cfg.arrowHead cfg.strokeWidth
            ep.x ep.y sh)) := by
  have hlen : st.currentPoints.length > 0 := List.length_pos.mpr hne
  constructor <;> simp [handlePointerUp, he, hcs, hlen]

/-- Pointer-up outside erase mode with a freehand/shape tool and no
in-progress shape: a stroke is committed exactly when at least two points
were recorded, with exactly the recorded points, and shapes are
untouched. -/
lemma handlePointerUp_freehand (cfg : Config) (st : CanvasState)
    (he : cfg.eraseMode = false) (ht : cfg.tool ≠ ShapeType.select)
    (hcs : st.currentShape = Option.none) :
    (handlePointerUp cfg st).strokes =
      (if st.currentPoints.length > 1 then
        st.strokes ++ [⟨st.currentPoints, cfg.color, cfg.strokeWidth,
          cfg.brushType, cfg.genId st.idCounter⟩]
      else st.strokes) ∧
    (handlePointerUp cfg st).shapes = st.shapes := by
  by_cases hlen : st.currentPoints.length > 1 <;>
    constructor <;> simp [handlePointerUp, he, ht, hcs, hlen]

/-- A single-sample eraser path removes no stroke: with no eraser
segment, the nested segment loops never execute. -/
lemma strokeRemovedByEraser_single (w : ℚ) (p : Point) (pts : List Point) :
    strokeRemovedByEraser w [p] pts = false := by
  simp [strokeRemovedByEraser, segments]

/-- Running `run` distributes over event-list concatenation. -/
lemma run_append (cfg : Config) (st : CanvasState) (l1 l2 : List Event) :
    run cfg st (l1 ++ l2) = run cfg (run cfg st l1) l2 := by
  unfold run
  exact List.foldl_append _ _ _ _

/-- An entire erase gesture from a quiescent state: both collections are
filtered by the erase resolution over the whole accumulated sample path
(down point followed by every move point, inverse-transformed). -/
lemma erase_gesture_run (cfg : Config) (st : CanvasState) (down : Point)
    (moves : List Point) (he : cfg.eraseMode = true)
    (ht : cfg.tool ≠ ShapeType.text) (hq : Quiescent st) :
    (run cfg st (gestureEvents down moves)).strokes =
      st.strokes.filter (fun s =>
        !strokeRemovedByEraser cfg.strokeWidth
          ((down :: moves).map (worldOf st)) s.points) ∧
    (run cfg st (gestureEvents down moves)).shapes =
      st.shapes.filter (fun sh =>
        !(((down :: moves).map (worldOf st)).any fun ep =>
          isPointNearShape cfg.measureText cfg.arrowHead cfg.strokeWidth
            ep.x ep.y sh)) := by
  obtain ⟨hpa, hpan, hdrw, hdrg, hres, hcp, hcs⟩ := hq
  obtain ⟨hh, hmv⟩ := run_moves_drawing cfg
    { st with pointerActive := true, currentPoints := [worldOf st down],
              isDrawing := true }
    moves hpan hdrg hres rfl (Or.inr he)
  have hrun : run cfg st (gestureEvents down moves) =
      handlePointerUp cfg
        { st with pointerActive := true,
                  currentPoints := [worldOf st down] ++ moves.map (worldOf st),
                  isDrawing := true, hoverHandle := hh } := by
    show run cfg st ([Event.pointerDown down] ++
      (moves.map Event.pointerMove ++ [Event.pointerUp])) = _
    rw [run_append, run_append]
    have h1 : run cfg st [Event.pointerDown down] =
        { st with pointerActive := true, currentPoints := [worldOf st down],
                  isDrawing := true } := by
      show (if st.pointerActive then st else handlePointerDown cfg st down) = _
      rw [if_neg (by simp [hpa])]
      exact handlePointerDown_erase cfg st down he ht hpan
    rw [h1, hmv]
    rfl
  rw [hrun]
  exact handlePointerUp_erase cfg
    { st with pointerActive := true,
              currentPoints := [worldOf st down] ++ moves.map (worldOf st),
              isDrawing := true, hoverHandle := hh }
    he hcs (by simp)

/-- An entire freehand-drawing gesture from a quiescent state: with no
recorded move no stroke is committed, with at least one move exactly one
stroke is appended, carrying the recorded points in order; shapes are
untouched. -/
lemma freehand_gesture_run (cfg : Config) (st : CanvasState) (down : Point)
    (moves : List Point) (ht : cfg.tool = ShapeType.none)
    (he : cfg.eraseMode = false) (hq : Quiescent st) :
    (run cfg st (gestureEvents down moves)).strokes =
      (if moves = [] then st.strokes
       else st.strokes ++
        [⟨(down :: moves).map (worldOf st), cfg.color, cfg.strokeWidth,
          cfg.brushType, cfg.genId st.idCounter⟩]) ∧
    (run cfg st (gestureEvents down moves)).shapes = st.shapes := by
  obtain ⟨hpa, hpan, hdrw, hdrg, hres, hcp, hcs⟩ := hq
  obtain ⟨hh, hmv⟩ := run_moves_drawing cfg
    { st with pointerActive := true, currentPoints := [worldOf st down],
              isDrawing := true }
    moves hpan hdrg hres rfl (Or.inl ht)
  have hrun : run cfg st (gestureEvents down moves) =
      handlePointerUp cfg
        { st with pointerActive := true,
                  currentPoints := [worldOf st down] ++ moves.map (worldOf st),
                  isDrawing := true, hoverHandle := hh } := by
    show run cfg st ([Event.pointerDown down] ++
      (moves.map Event.pointerMove ++ [Event.pointerUp])) = _
    rw [run_append, run_append]
    have h1 : run cfg st [Event.pointerDown down] =
        { st with pointerActive := true, currentPoints := [worldOf st down],
                  isDrawing := true } := by
      show (if st.pointerActive then st else handlePointerDown cfg st down) = _
      rw [if_neg (by simp [hpa])]
      exact handlePointerDown_freehand cfg st down ht he hpan
    rw [h1, hmv]
    rfl
  have hts : cfg.tool ≠ ShapeType.select := by rw [ht]; intro h; cases h
  have hup := handlePointerUp_freehand cfg
    { st with pointerActive := true,
              currentPoints := [worldOf st down] ++ moves.map (worldOf st),
              isDrawing := true, hoverHandle := hh }
    he hts hcs
  rw [hrun]
  refine ⟨?_, hup.2⟩
  rw [hup.1]
  show (if (worldOf st down :: moves.map (worldOf st)).length > 1 then _ else _) = _
  rcases moves with _ | ⟨m, ms⟩ <;> simp

/-- C9: every hit-test proximity threshold comes from the active tool
stroke-width setting, not from the stored width of the element: for a
fixed stroke (resp. a fixed shape) and a fixed query point, two runs that
differ only in the active stroke-width return different results, while
changing the element's own stored width changes nothing (the near-stroke
test does not even receive the stroke's stored width). -/
theorem hit_test_uses_tool_width :
    (isPointNearStroke 1 0 4 hStrokePts = false ∧
     isPointNearStroke 3 0 4 hStrokePts = true) ∧
    (isPointNearShape mtFix ahFix 1 25 10 sqShape = false ∧
     isPointNearShape mtFix ahFix 3 25 10 sqShape = true) ∧
    isPointNearShape mtFix ahFix 3 25 10 { sqShape with width := 999 } =
      isPointNearShape mtFix ahFix 3 25 10 sqShape := by
  refine ⟨⟨?_, ?_⟩, ⟨?_, ?_⟩, ?_⟩ <;>
    norm_num [isPointNearStroke, hStrokePts, segments, sqrtLt, distToSegSq,
      isPointNearShape, sqShape, mtFix, ahFix]

/-- Counterexample to C7 as stated: the near-stroke hit test uses a
strict `<` threshold, so the query point (0, 2.5), which lies at exactly
the threshold distance `strokeWidth * 2.5 = 2.5` from the stroke along
y = 0, is not counted as a hit. -/
theorem inclusive_boundary_counterexample :
    distToSegSq 0 (5/2) ⟨0, 0, Option.none⟩ ⟨10, 0, Option.none⟩ =
      (1 * (5/2)) * (1 * (5/2)) ∧
    isPointNearStroke 1 0 (5/2) hStrokePts = false := by
  constructor <;>
    norm_num [isPointNearStroke, hStrokePts, segments, sqrtLt, distToSegSq]

/-- Counterexample to C6 as stated: in the initial reachable state no
mode is active (count 0, not 1), and after a freehand pointer-down
followed by pressing Space, both drawing and panning are active
(count 2, not 1). -/
theorem mode_exclusion_counterexample :
    modeCount cfgPencil
        (run cfgPencil initState
          [Event.pointerDown ⟨0, 0, Option.some 0⟩, Event.keyDownSpace]) = 2 ∧
    modeCount cfgPencil initState = 0 := by
  decide

/-- Counterexample to C4 as stated: (100,0) is an endpoint of an
eraser-path segment, and an endpoint of the stroke's only segment lies
within `strokeWidth * 2 = 6` of it, so the claim requires the stroke to
be removed; but the code only measures proximity to eraser-segment
*start* points and finds no intersection, so the erase gesture keeps the
stroke. -/
theorem erase_endpoint_claim_counterexample :
    (∃ es ∈ segments erasePathFix, es.2 = ⟨100, 0, Option.none⟩) ∧
    sqrtLt (distSq ⟨100, 5, Option.none⟩ ⟨100, 0, Option.none⟩) (3 * 2) = true ∧
    strokeRemovedByEraser 3 erasePathFix tailStroke.points = false ∧
    (run cfgErase { initState with strokes := [tailStroke] }
        (gestureEvents ⟨0, 0, Option.some 0⟩ [⟨100, 0, Option.some 0⟩])).strokes =
      [tailStroke] := by
  refine ⟨⟨(⟨0, 0, Option.none⟩, ⟨100, 0, Option.none⟩), ?_, rfl⟩, ?_, ?_, ?_⟩
  · norm_num [segments, erasePathFix]
  · norm_num [sqrtLt, distSq]
  · norm_num [strokeRemovedByEraser, erasePathFix, tailStroke, segments, sqrtLt,
      distSq, doLineSegmentsIntersect]
  · have h := (erase_gesture_run cfgErase { initState with strokes := [tailStroke] }
      ⟨0, 0, Option.some 0⟩ [⟨100, 0, Option.some 0⟩] rfl (by decide)
      (by constructor <;> simp [initState])).1
    rw [h]
    norm_num [strokeRemovedByEraser, tailStroke, segments, sqrtLt, distSq,
      doLineSegmentsIntersect, worldOf, initState, cfgErase, cfgPencil]

/-- C3: for every freehand drawing gesture (pointer-down, pointer-moves,
pointer-up, with the freehand tool active and erase mode off) from a
quiescent state: if exactly 1 point was recorded no Stroke is committed
and the strokes collection is unchanged; if at least 2 points were
recorded exactly one Stroke is appended, whose points are exactly the
recorded (inverse-transformed) points in recording order; shapes are
untouched either way. -/
theorem freehand_gesture_commit (cfg : Config) (st : CanvasState)
    (down : Point) (moves : List Point) (ht : cfg.tool = ShapeType.none)
    (he : cfg.eraseMode = false) (hq : Quiescent st) :
    ((down :: moves).length = 1 →
      (run cfg st (gestureEvents down moves)).strokes = st.strokes) ∧
    ((down :: moves).length ≥ 2 →
      (run cfg st (gestureEvents down moves)).strokes =
        st.strokes ++ [⟨(down :: moves).map (worldOf st), cfg.color,
          cfg.strokeWidth, cfg.brushType, cfg.genId st.idCounter⟩]) ∧
    (run cfg st (gestureEvents down moves)).shapes = st.shapes := by
  obtain ⟨h1, h2⟩ := freehand_gesture_run cfg st down moves ht he hq
  refine ⟨?_, ?_, h2⟩
  · intro hlen
    have hmv : moves = [] := by cases moves <;> simp_all
    rw [h1, if_pos hmv]
  · intro hlen
    have hmv : moves ≠ [] := by cases moves <;> simp_all
    rw [h1, if_neg hmv]

/-- Witness for C3: a two-point gesture commits exactly one stroke with
the two recorded points. -/
theorem freehand_gesture_commit_witness :
    (run cfgPencil initState (gestureEvents ⟨10, 10, Option.some (1/2)⟩
        [⟨10, 40, Option.some (1/2)⟩])).strokes =
      initState.strokes ++
        [⟨[⟨10, 10, Option.some (1/2)⟩, ⟨10, 40, Option.some (1/2)⟩].map
            (worldOf initState),
          cfgPencil.color, cfgPencil.strokeWidth, cfgPencil.brushType,
          cfgPencil.genId initState.idCounter⟩] :=
  (freehand_gesture_commit cfgPencil initState ⟨10, 10, Option.some (1/2)⟩
    [⟨10, 40, Option.some (1/2)⟩] rfl rfl
    ⟨rfl, rfl, rfl, rfl, rfl, rfl, rfl⟩).2.1 (by simp)

/-- C10: an erase gesture whose recorded path contains exactly one
sampled point (pointer-down then pointer-up with no recorded move)
removes no Stroke — the strokes collection is unchanged — while shapes
near that single point are still removed. -/
theorem erase_single_point_strokes_unchanged (cfg : Config)
    (st : CanvasState) (c : Point) (he : cfg.eraseMode = true)
    (ht : cfg.tool ≠ ShapeType.text) (hq : Quiescent st) :
    (run cfg st (gestureEvents c [])).strokes = st.strokes ∧
    (run cfg st (gestureEvents c [])).shapes =
      st.shapes.filter (fun sh =>
        !isPointNearShape cfg.measureText cfg.arrowHead cfg.strokeWidth
          (worldOf st c).x (worldOf st c).y sh) := by
  obtain ⟨h1, h2⟩ := erase_gesture_run cfg st c [] he ht hq
  constructor
  · rw [h1]
    refine List.filter_eq_self.mpr fun s _ => ?_
    simp [strokeRemovedByEraser_single]
  · rw [h2]
    simp

/-- Witness for C10: a single-point erase gesture at the corner of a
square shape keeps the stroke collection intact and removes the shape. -/
theorem erase_single_point_witness :
    (run cfgErase { initState with strokes := [tailStroke], shapes := [sqShape] }
        (gestureEvents ⟨0, 0, Option.some 0⟩ [])).strokes = [tailStroke] ∧
    (run cfgErase { initState with strokes := [tailStroke], shapes := [sqShape] }
        (gestureEvents ⟨0, 0, Option.some 0⟩ [])).shapes = [] := by
  have h := erase_single_point_strokes_unchanged cfgErase
    { initState with strokes := [tailStroke], shapes := [sqShape] }
    ⟨0, 0, Option.some 0⟩ rfl (by decide) ⟨rfl, rfl, rfl, rfl, rfl, rfl, rfl⟩
  refine ⟨h.1, ?_⟩
  rw [h.2]
  norm_num [isPointNearShape, sqShape, worldOf, mtFix, ahFix, cfgErase,
    cfgPencil, initState]

/-- C4 (amended): at the end of every erase gesture from a quiescent
state, both collections are filtered against the whole accumulated sample
path; a Stroke is removed iff some stroke segment has an endpoint
strictly within `strokeWidth * 2` of the *start* point of some
eraser-path segment (i.e. of some accumulated sample other than the
last), or geometrically intersects some eraser-path segment; a Shape is
removed iff some accumulated sample point satisfies the near-shape
test. -/
theorem erase_gesture_resolution (cfg : Config) (st : CanvasState)
    (down : Point) (moves : List Point) (he : cfg.eraseMode = true)
    (ht : cfg.tool ≠ ShapeType.text) (hq : Quiescent st) :
    ((run cfg st (gestureEvents down moves)).strokes =
      st.strokes.filter (fun s =>
        !strokeRemovedByEraser cfg.strokeWidth
          ((down :: moves).map (worldOf st)) s.points) ∧
     (run cfg st (gestureEvents down moves)).shapes =
      st.shapes.filter (fun sh =>
        !(((down :: moves).map (worldOf st)).any fun ep =>
          isPointNearShape cfg.measureText cfg.arrowHead cfg.strokeWidth
            ep.x ep.y sh))) ∧
    (∀ (w : ℚ) (path pts : List Point),
      strokeRemovedByEraser w path pts = true ↔
        ∃ ss ∈ segments pts, ∃ es ∈ segments path,
          sqrtLt (distSq ss.1 es.1) (w * 2) = true ∨
          sqrtLt (distSq ss.2 es.1) (w * 2) = true ∨
          doLineSegmentsIntersect ss.1 ss.2 es.1 es.2 = true) := by
  refine ⟨erase_gesture_run cfg st down moves he ht hq, ?_⟩
  intro w path pts
  simp only [strokeRemovedByEraser, List.any_eq_true, Bool.or_eq_true,
    Prod.exists, or_assoc]

/-- Witness for C4 (amended): an eraser pass crossing a horizontal stroke
removes it. -/
theorem erase_gesture_resolution_witness :
    (run cfgErase { initState with strokes := [crossStroke] }
        (gestureEvents ⟨50, -1, Option.some 0⟩ [⟨50, 1, Option.some 0⟩])).strokes =
      [] := by
  have h := (erase_gesture_resolution cfgErase
    { initState with strokes := [crossStroke] }
    ⟨50, -1, Option.some 0⟩ [⟨50, 1, Option.some 0⟩] rfl (by decide)
    ⟨rfl, rfl, rfl, rfl, rfl, rfl, rfl⟩).1.1
  rw [h]
  norm_num [strokeRemovedByEraser, crossStroke, segments, sqrtLt, distSq,
    doLineSegmentsIntersect, worldOf, initState, cfgErase, cfgPencil]

/-- The gesture-mode count splits `isDrawing` into drawing/erasing, so it
equals the raw flag count. -/
lemma gestureModeCount_eq_flagCount (cfg : Config) (st : CanvasState) :
    gestureModeCount cfg st = flagCount st := by
  unfold gestureModeCount flagCount
  cases hcfg : cfg.eraseMode <;> cases hst : st.isDrawing <;> simp

set_option maxHeartbeats 2000000 in
/-- A pointer-down from a state with no gesture flag set captures the
pointer and sets at most one gesture flag. -/
lemma handlePointerDown_flags (cfg : Config) (st : CanvasState) (c : Point)
    (h1 : st.isDrawing = false) (h2 : st.isDragging = false)
    (h3 : st.isResizing = false) :
    flagCount (handlePointerDown cfg st c) ≤ 1 ∧
    (handlePointerDown cfg st c).pointerActive = true := by
  obtain ⟨str, shp, cp, cs, ti, dr, dg, rs, pn, lp, se, ds, rh, hh, zm, px, py, pa, ic⟩ := st
  simp only at h1 h2 h3
  subst h1 h2 h3
  unfold handlePointerDown
  dsimp only
  repeat' split
  all_goals simp_all [flagCount]

set_option maxHeartbeats 2000000 in
/-- A pointer-move never changes the gesture flags or the capture
state. -/
lemma handlePointerMove_flags (cfg : Config) (st : CanvasState) (c : Point) :
    (handlePointerMove cfg st c).isDrawing = st.isDrawing ∧
    (handlePointerMove cfg st c).isDragging = st.isDragging ∧
    (handlePointerMove cfg st c).isResizing = st.isResizing ∧
    (handlePointerMove cfg st c).pointerActive = st.pointerActive := by
  obtain ⟨str, shp, cp, cs, ti, dr, dg, rs, pn, lp, se, ds, rh, hh, zm, px, py, pa, ic⟩ := st
  unfold handlePointerMove
  dsimp only
  repeat' split
  all_goals exact ⟨rfl, rfl, rfl, rfl⟩

set_option maxHeartbeats 2000000 in
/-- A pointer-up clears every gesture flag and releases the pointer. -/
lemma handlePointerUp_flags (cfg : Config) (st : CanvasState) :
    (handlePointerUp cfg st).isDrawing = false ∧
    (handlePointerUp cfg st).isDragging = false ∧
    (handlePointerUp cfg st).isResizing = false ∧
    (handlePointerUp cfg st).pointerActive = false := by
  obtain ⟨str, shp, cp, cs, ti, dr, dg, rs, pn, lp, se, ds, rh, hh, zm, px, py, pa, ic⟩ := st
  unfold handlePointerUp
  dsimp only
  repeat' split
  all_goals exact ⟨rfl, rfl, rfl, rfl⟩

/-- Every event dispatch preserves the interaction invariant. -/
lemma step_preserves_inv (cfg : Config) (st : CanvasState) (e : Event)
    (h : InteractionInv st) : InteractionInv (step cfg st e) := by
  rcases e with _ | _ | ⟨ctrl, dx, dy, cx, cy⟩ | c | c | _ | _
  · exact h
  · exact h
  · show InteractionInv (handleWheelEvent st ctrl dx dy cx cy)
    unfold handleWheelEvent
    split
    · exact h
    · exact h
  · show InteractionInv (if st.pointerActive then st else handlePointerDown cfg st c)
    by_cases hpa : st.pointerActive = true
    · rw [if_pos hpa]
      exact h
    · rw [if_neg hpa]
      have hpa' : st.pointerActive = false := by
        cases hx : st.pointerActive
        · rfl
        · exact absurd hx hpa
      obtain ⟨hf1, hf2, hf3⟩ := h.1 hpa'
      obtain ⟨hle, hact⟩ := handlePointerDown_flags cfg st c hf1 hf2 hf3
      exact ⟨fun hcontra => absurd hact (by rw [hcontra]; decide), hle⟩
  · show InteractionInv (handlePointerMove cfg st c)
    obtain ⟨e1, e2, e3, e4⟩ := handlePointerMove_flags cfg st c
    constructor
    · intro hpa
      rw [e4] at hpa
      obtain ⟨f1, f2, f3⟩ := h.1 hpa
      exact ⟨by rw [e1, f1], by rw [e2, f2], by rw [e3, f3]⟩
    · have : flagCount (handlePointerMove cfg st c) = flagCount st := by
        unfold flagCount
        rw [e1, e2, e3]
      rw [this]
      exact h.2
  · show InteractionInv (handlePointerUp cfg st)
    obtain ⟨e1, e2, e3, _⟩ := handlePointerUp_flags cfg st
    refine ⟨fun _ => ⟨e1, e2, e3⟩, ?_⟩
    unfold flagCount
    rw [e1, e2, e3]
    simp
  · show InteractionInv { handlePointerUp cfg st with hoverHandle := Option.none }
    obtain ⟨e1, e2, e3, _⟩ := handlePointerUp_flags cfg st
    refine ⟨fun _ => ⟨e1, e2, e3⟩, ?_⟩
    unfold flagCount
    show (if (handlePointerUp cfg st).isDrawing then 1 else 0) +
      (if (handlePointerUp cfg st).isDragging then 1 else 0) +
      (if (handlePointerUp cfg st).isResizing then 1 else 0) ≤ 1
    rw [e1, e2, e3]
    simp

/-- The invariant holds along every run from the initial state. -/
lemma run_preserves_inv (cfg : Config) (evts : List Event) (st : CanvasState)
    (h : InteractionInv st) : InteractionInv (run cfg st evts) := by
  induction evts generalizing st with
  | nil => exact h
  | cons e es ih => exact ih (step cfg st e) (step_preserves_inv cfg st e h)

/-- C6 (amended): in every state reachable by any sequence of pointer,
wheel and keyboard events from the initial state, at most one of the
pointer-gesture modes {drawing, erasing, dragging, resizing} is active;
none is active when idle, and the panning flag is tracked independently
of them (it can overlap, as the counterexample shows). -/
theorem gesture_modes_at_most_one (cfg : Config) (evts : List Event) :
    gestureModeCount cfg (run cfg initState evts) ≤ 1 := by
  have hinv := run_preserves_inv cfg evts initState
    ⟨fun _ => ⟨rfl, rfl, rfl⟩, by decide⟩
  rw [gestureModeCount_eq_flagCount]
  exact hinv.2

/-- C7 (amended): the resize-handle hit boxes use inclusive boundaries
and a point equidistant from two handles (lying in both hit boxes)
resolves to the first handle in the enumeration order nw, ne, sw, se; the
square near-shape interval test is likewise inclusive at the exact
margin; but the distance-threshold near-stroke test is strict — a query
point at exactly the threshold distance is a miss. -/
theorem hit_test_boundary_policy :
    (∀ (mt : ℚ → String → ℚ) (el : Element) (x y : ℚ),
      inHandleBox x y (handlePos (elemBounds mt el) Handle.nw) = true →
        getResizeHandle mt x y el = Option.some Handle.nw) ∧
    (∀ (mt : ℚ → String → ℚ) (el : Element) (x y : ℚ),
      inHandleBox x y (handlePos (elemBounds mt el) Handle.nw) = false →
      inHandleBox x y (handlePos (elemBounds mt el) Handle.ne) = true →
        getResizeHandle mt x y el = Option.some Handle.ne) ∧
    (handlePos (elemBounds mtFix (Element.shape sqSmall)) Handle.nw = (-8, -8) ∧
     handlePos (elemBounds mtFix (Element.shape sqSmall)) Handle.ne = (12, -8)) ∧
    distSq ⟨2, -8, Option.none⟩ ⟨-8, -8, Option.none⟩ =
      distSq ⟨2, -8, Option.none⟩ ⟨12, -8, Option.none⟩ ∧
    (inHandleBox 2 (-8) (-8, -8) = true ∧ inHandleBox 2 (-8) (12, -8) = true) ∧
    getResizeHandle mtFix 2 (-8) (Element.shape sqSmall) = Option.some Handle.nw ∧
    isPointNearStroke 1 0 (5/2) hStrokePts = false ∧
    isPointNearShape mtFix ahFix 2 25 10 sqShape = true := by
  have c1 : ∀ (mt : ℚ → String → ℚ) (el : Element) (x y : ℚ),
      inHandleBox x y (handlePos (elemBounds mt el) Handle.nw) = true →
        getResizeHandle mt x y el = Option.some Handle.nw := by
    intro mt el x y h
    unfold getResizeHandle
    simp [List.find?_cons_of_pos, h]
  have c2 : ∀ (mt : ℚ → String → ℚ) (el : Element) (x y : ℚ),
      inHandleBox x y (handlePos (elemBounds mt el) Handle.nw) = false →
      inHandleBox x y (handlePos (elemBounds mt el) Handle.ne) = true →
        getResizeHandle mt x y el = Option.some Handle.ne := by
    intro mt el x y h1 h2
    unfold getResizeHandle
    simp [List.find?_cons_of_pos, List.find?_cons_of_neg, h1, h2]
  have hb : handlePos (elemBounds mtFix (Element.shape sqSmall)) Handle.nw = (-8, -8) ∧
      handlePos (elemBounds mtFix (Element.shape sqSmall)) Handle.ne = (12, -8) := by
    constructor <;> norm_num [handlePos, elemBounds, sqSmall, mtFix]
  refine ⟨c1, c2, hb, by norm_num [distSq], ⟨?_, ?_⟩,
    c1 mtFix (Element.shape sqSmall) 2 (-8) ?_, ?_, ?_⟩
  · norm_num [inHandleBox]
  · norm_num [inHandleBox]
  · rw [hb.1]
    norm_num [inHandleBox]
  · norm_num [isPointNearStroke, hStrokePts, segments, sqrtLt, distToSegSq]
  · norm_num [isPointNearShape, sqShape, mtFix, ahFix]

/-- Witness for C7 (amended): a point on the inclusive edge of the nw hit
box returns nw, and a point inside only the ne box returns ne. -/
theorem hit_test_boundary_policy_witness :
    getResizeHandle mtFix (-18) (-18) (Element.shape sqSmall) =
      Option.some Handle.nw ∧
    getResizeHandle mtFix 22 (-8) (Element.shape sqSmall) =
      Option.some Handle.ne := by
  refine ⟨hit_test_boundary_policy.1 mtFix (Element.shape sqSmall) (-18) (-18) ?_,
    hit_test_boundary_policy.2.1 mtFix (Element.shape sqSmall) 22 (-8) ?_ ?_⟩ <;>
    norm_num [inHandleBox, handlePos, elemBounds, sqSmall, mtFix]

/-- C8: for a stroke whose bounding box has non-zero width and height, a
resize step mapping the box to non-degenerate new dimensions preserves
every point's relative offset within the box:
`(p'.x - newX) / newW = (p.x - minX) / w0` and likewise for y. -/
theorem stroke_resize_proportional (h : Handle) (pt : Point)
    (pts : List Point) (q : Point) (hq : q ∈ pts)
    (hw0 : (strokeBBox pts).maxX - (strokeBBox pts).minX ≠ 0)
    (hh0 : (strokeBBox pts).maxY - (strokeBBox pts).minY ≠ 0)
    (hw1 : (resizeTarget h pt (strokeBBox pts)).newW ≠ 0)
    (hh1 : (resizeTarget h pt (strokeBBox pts)).newH ≠ 0) :
    ((resizePoint (strokeBBox pts) (resizeTarget h pt (strokeBBox pts)) q).x -
        (resizeTarget h pt (strokeBBox pts)).newX) /
      (resizeTarget h pt (strokeBBox pts)).newW =
      (q.x - (strokeBBox pts).minX) /
        ((strokeBBox pts).maxX - (strokeBBox pts).minX) ∧
    ((resizePoint (strokeBBox pts) (resizeTarget h pt (strokeBBox pts)) q).y -
        (resizeTarget h pt (strokeBBox pts)).newY) /
      (resizeTarget h pt (strokeBBox pts)).newH =
      (q.y - (strokeBBox pts).minY) /
        ((strokeBBox pts).maxY - (strokeBBox pts).minY) := by
  constructor
  · show ((resizeTarget h pt (strokeBBox pts)).newX +
        (q.x - (strokeBBox pts).minX) /
          ((strokeBBox pts).maxX - (strokeBBox pts).minX) *
          (resizeTarget h pt (strokeBBox pts)).newW -
        (resizeTarget h pt (strokeBBox pts)).newX) /
      (resizeTarget h pt (strokeBBox pts)).newW = _
    field_simp
    ring
  · show ((resizeTarget h pt (strokeBBox pts)).newY +
        (q.y - (strokeBBox pts).minY) /
          ((strokeBBox pts).maxY - (strokeBBox pts).minY) *
          (resizeTarget h pt (strokeBBox pts)).newH -
        (resizeTarget h pt (strokeBBox pts)).newY) /
      (resizeTarget h pt (strokeBBox pts)).newH = _
    field_simp
    ring

/-- Witness for C8 at the corner point (4,2) of the stroke box (0,0)–(4,2)
dragged by the se handle to (8,6). -/
theorem stroke_resize_proportional_witness :
    (⟨4, 2, Option.none⟩ : Point) ∈ resizePts ∧
    (strokeBBox resizePts).maxX - (strokeBBox resizePts).minX ≠ 0 ∧
    ((resizePoint (strokeBBox resizePts)
        (resizeTarget Handle.se ⟨8, 6, Option.some 0⟩ (strokeBBox resizePts))
        ⟨4, 2, Option.none⟩).x -
      (resizeTarget Handle.se ⟨8, 6, Option.some 0⟩ (strokeBBox resizePts)).newX) /
      (resizeTarget Handle.se ⟨8, 6, Option.some 0⟩ (strokeBBox resizePts)).newW =
      ((4 : ℚ) - (strokeBBox resizePts).minX) /
        ((strokeBBox resizePts).maxX - (strokeBBox resizePts).minX) := by
  have hw0 : (strokeBBox resizePts).maxX - (strokeBBox resizePts).minX ≠ 0 := by
    norm_num [strokeBBox, minXOf, maxXOf, resizePts, min_def, max_def]
  have hh0 : (strokeBBox resizePts).maxY - (strokeBBox resizePts).minY ≠ 0 := by
    norm_num [strokeBBox, minYOf, maxYOf, resizePts, min_def, max_def]
  have hw1 : (resizeTarget Handle.se ⟨8, 6, Option.some 0⟩
      (strokeBBox resizePts)).newW ≠ 0 := by
    norm_num [resizeTarget, strokeBBox, minXOf, maxXOf, resizePts, min_def, max_def]
  have hh1 : (resizeTarget Handle.se ⟨8, 6, Option.some 0⟩
      (strokeBBox resizePts)).newH ≠ 0 := by
    norm_num [resizeTarget, strokeBBox, minYOf, maxYOf, resizePts, min_def, max_def]
  exact ⟨by simp [resizePts],
    hw0,
    (stroke_resize_proportional Handle.se ⟨8, 6, Option.some 0⟩ resizePts
      ⟨4, 2, Option.none⟩ (by simp [resizePts]) hw0 hh0 hw1 hh1).1⟩

end DrawingApp
